import Mathlib

/-!
Shallow embedding of the manifest-reconciliation engine of the
meshery-octarine adapter (`octarine/octarine.go`).

The remote structured-resource store (the Kubernetes dynamic client) is
modelled as an oracle: the `n`-th store call issued by the engine receives
the answer `responses n`.  Every call the engine makes is recorded, in
order, in a trace (`EngineState.calls`), so that claims about which calls
are made and in which order can be stated and proved.  Documents
(`unstructured.Unstructured` contents, i.e. `map[string]interface{}`
trees) are modelled as association lists of JSON-like values.  Go string
helpers (`strings.Split` on `"/"` and `"---"`, `strings.TrimSpace`,
`strings.HasSuffix`) are translated to character-list / string functions.
-/

set_option autoImplicit false

namespace MesheryOctarine

/-- JSON-like values: model of the Go `interface{}` trees held in an
`unstructured.Unstructured` object. -/
inductive Value where
  | null
  | boolV (b : Bool)
  | intV (n : Int)
  | strV (s : String)
  | arr (elems : List Value)
  | obj (fields : List (String × Value))

/-- Content of an `unstructured.Unstructured`: the top-level
`map[string]interface{}`. -/
abbrev Obj := List (String × Value)

/-- Association lookup: Go map read `m[k]`. -/
def lookupKey : Obj → String → Option Value
  | [], _ => none
  | (k', v) :: rest, k => if k' = k then some v else lookupKey rest k

/-- Association update: Go map write `m[k] = v`. -/
def setEntry : Obj → String → Value → Obj
  | [], k, v => [(k, v)]
  | (k', v') :: rest, k, v =>
    if k' = k then (k, v) :: rest else (k', v') :: setEntry rest k v

/-- A nested string field, defaulting to `""` (Go `NestedString` semantics). -/
def asString : Option Value → String
  | some (.strV s) => s
  | _ => ""

/-- `Unstructured.GetName`: reads `metadata.name`, `""` when absent. -/
def getName (d : Obj) : String :=
  match lookupKey d "metadata" with
  | some (.obj m) => asString (lookupKey m "name")
  | _ => ""

/-- `Unstructured.GetNamespace`: reads `metadata.namespace`, `""` when absent. -/
def getNamespace (d : Obj) : String :=
  match lookupKey d "metadata" with
  | some (.obj m) => asString (lookupKey m "namespace")
  | _ => ""

/-- `Unstructured.GetKind`: reads the top-level `kind` field. -/
def getKind (d : Obj) : String := asString (lookupKey d "kind")

/-- `Unstructured.GetAPIVersion`: reads the top-level `apiVersion` field. -/
def getAPIVersion (d : Obj) : String := asString (lookupKey d "apiVersion")

/-- `Unstructured.SetNamespace`: sets `metadata.namespace`, creating the
`metadata` map when absent; a non-map `metadata` value makes the nested set
fail, and the failure is ignored (object left unchanged). -/
def setNamespace (d : Obj) (ns : String) : Obj :=
  match lookupKey d "metadata" with
  | some (.obj m) => setEntry d "metadata" (.obj (setEntry m "namespace" (.strV ns)))
  | some _ => d
  | none => setEntry d "metadata" (.obj [("namespace", .strV ns)])

/-- `schema.GroupVersionResource`. -/
structure GVR where
  group : String
  version : String
  resource : String

/-- One call issued against the dynamic client.  `ns = some n` models
`Resource(res).Namespace(n)` (namespace-scoped, even when `n = ""`);
`ns = none` models the plain `Resource(res)` (no namespace scope). -/
inductive StoreCall where
  | create (res : GVR) (ns : Option String) (data : Obj)
  | get (res : GVR) (ns : Option String) (name : String)
  | update (res : GVR) (ns : Option String) (data : Obj)
  | delete (res : GVR) (ns : Option String) (name : String)

def StoreCall.isUpdate : StoreCall → Bool
  | .update _ _ _ => true
  | _ => false

def StoreCall.isDelete : StoreCall → Bool
  | .delete _ _ _ => true
  | _ => false

/-- The engine's view of the world: the store oracle (`responses n` answers
the `n`-th call), whether the dynamic client was created
(`k8sDynamicClient != nil`), and the trace of calls issued so far. -/
structure EngineState where
  responses : Nat → Except String Obj
  clientOk : Bool
  calls : List StoreCall

/-- Issue one store call: record it and fetch the oracle's answer for the
current call index. -/
def issue (s : EngineState) (c : StoreCall) : Except String Obj × EngineState :=
  (s.responses s.calls.length, { s with calls := s.calls ++ [c] })

/-- An engine state with an empty trace. -/
def initState (resp : Nat → Except String Obj) : EngineState :=
  { responses := resp, clientOk := true, calls := [] }

/-- `errors.Wrapf(err, msg)` as rendered by `err.Error()`. -/
def wrapErr (msg e : String) : String := msg ++ ": " ++ e

/-- Outcome of an engine operation: Go return value, returned error, or a
runtime panic. -/
inductive Outcome (α : Type) where
  | ok (a : α)
  | err (msg : String)
  | crash

/-- `createResource`: namespace-scoped create, then on failure a create
with no namespace scope, surfacing the second failure. -/
def createResource (s : EngineState) (res : GVR) (data : Obj) :
    Except String Unit × EngineState :=
  match issue s (.create res (some (getNamespace data)) data) with
  | (.ok _, s1) => (.ok (), s1)
  | (.error _, s1) =>
    match issue s1 (.create res none data) with
    | (.ok _, s2) => (.ok (), s2)
    | (.error e2, s2) =>
      (.error (wrapErr "unable to create the requested resource, attempting to update" e2), s2)

/-- `getResource`: namespace-scoped get by name, then on failure a get with
no namespace scope, surfacing the second failure. -/
def getResource (s : EngineState) (res : GVR) (data : Obj) :
    Except String Obj × EngineState :=
  match issue s (.get res (some (getNamespace data)) (getName data)) with
  | (.ok v, s1) => (.ok v, s1)
  | (.error _, s1) =>
    match issue s1 (.get res none (getName data)) with
    | (.ok v, s2) => (.ok v, s2)
    | (.error e2, s2) =>
      (.error (wrapErr "unable to retrieve the resource with a matching name, while attempting to apply the config" e2), s2)

/-- `updateResource`: namespace-scoped update, then on failure an update
with no namespace scope, surfacing the second failure. -/
def updateResource (s : EngineState) (res : GVR) (data : Obj) :
    Except String Unit × EngineState :=
  match issue s (.update res (some (getNamespace data)) data) with
  | (.ok _, s1) => (.ok (), s1)
  | (.error _, s1) =>
    match issue s1 (.update res none data) with
    | (.ok _, s2) => (.ok (), s2)
    | (.error e2, s2) =>
      (.error (wrapErr "unable to update resource with the given name, while attempting to apply the config" e2), s2)

/-- The body of the deployments scale-down step in `deleteResource`:
`depl["spec"].(map[string]interface{})` followed by `spec1["replicas"] = 0`.
Returns `none` exactly when the Go type assertion would panic (no `"spec"`
key, or a `"spec"` value that is not a map). -/
def specZeroed (v : Obj) : Option Obj :=
  match lookupKey v "spec" with
  | some (.obj sp) => some (setEntry v "spec" (.obj (setEntry sp "replicas" (.intV 0))))
  | _ => none

/-- `deleteResource`: nil-client guard; skip for the default namespace
object; deployments are first fetched, scaled to zero replicas and updated;
then a namespace-scoped delete with a fallback delete without namespace. -/
def deleteResource (s : EngineState) (res : GVR) (data : Obj) :
    Outcome Unit × EngineState :=
  if s.clientOk then
    if res.resource = "namespaces" ∧ getName data = "default" then (.ok (), s)
    else
      let step : Outcome Unit × EngineState :=
        if res.resource = "deployments" then
          match getResource s res data with
          | (.error e, s1) => (.err e, s1)
          | (.ok v, s1) =>
            match specZeroed v with
            | none => (.crash, s1)
            | some v' =>
              match updateResource s1 res v' with
              | (.ok _, s2) => (.ok (), s2)
              | (.error e, s2) => (.err e, s2)
        else (.ok (), s)
      match step with
      | (.ok _, s1) =>
        match issue s1 (.delete res (some (getNamespace data)) (getName data)) with
        | (.ok _, s2) => (.ok (), s2)
        | (.error _, s2) =>
          match issue s2 (.delete res none (getName data)) with
          | (.ok _, s3) => (.ok (), s3)
          | (.error e2, s3) => (.err (wrapErr "unable to delete the requested resource" e2), s3)
      | other => other
  else (.err "mesh client has not been created", s)

/-- Prepend a character to the first piece of a split result (the
"extend the current segment" step of a left-to-right scan). -/
def consHead (c : Char) : List (List Char) → List (List Char)
  | [] => [[c]]
  | p :: ps => (c :: p) :: ps

/-- Go `strings.Split(s, "/")`, character-level: cut at every `'/'`. -/
def splitSlash : List Char → List (List Char)
  | [] => [[]]
  | c :: rest =>
    if c = '/' then [] :: splitSlash rest else consHead c (splitSlash rest)

/-- Go `strings.Split(s, "---")`, character-level: cut at each leftmost
occurrence of three consecutive dashes and continue after it. -/
def splitDashes : List Char → List (List Char)
  | [] => [[]]
  | [c] => [[c]]
  | [c, d] => [[c, d]]
  | c :: d :: e :: rest =>
    if c = '-' ∧ d = '-' ∧ e = '-' then [] :: splitDashes rest
    else consHead c (splitDashes (d :: e :: rest))

/-- The group/version computation of `executeManifest`: split `apiVersion`
on `"/"`; two parts give group and version, one part gives only the
version, anything else leaves both at their zero value. -/
def resolveGV (apiVersion : List Char) : String × String :=
  let groupVersion := splitSlash apiVersion
  if groupVersion.length = 2 then
    (String.mk (groupVersion.getD 0 []), String.mk (groupVersion.getD 1 []))
  else if groupVersion.length = 1 then ("", String.mk (groupVersion.getD 0 []))
  else ("", "")

/-- Go `strings.ToLower`, character-wise. -/
def toLowerStr (s : String) : String := String.mk (s.data.map Char.toLower)

/-- The kind-pluralization switch of `executeManifest`: lower-case the
kind; `"logentry"` and `"kubernetes"` map to fixed literals; every other
kind gets `"s"` appended. -/
def pluralizeKind (rawKind : String) : String :=
  let kind := toLowerStr rawKind
  if kind = "logentry" then "logentries"
  else if kind = "kubernetes" then "kuberneteses"
  else kind ++ "s"

/-- The document-resolution preamble of `executeManifest`: override the
namespace when the caller supplied one, then compute the target
`GroupVersionResource` from `apiVersion` and `kind`. -/
def resolveDoc (data : Obj) (nsArg : String) : Obj × GVR :=
  let d := if nsArg ≠ "" then setNamespace data nsArg else data
  let gv := resolveGV (getAPIVersion d).data
  (d, { group := gv.1, version := gv.2, resource := pluralizeKind (getKind d) })

/-- The apply (create-or-update) path of `executeManifest`: try
`createResource`; on failure, `getResource` and then `updateResource` with
the object the get returned. -/
def applyStep (s : EngineState) (res : GVR) (data : Obj) :
    Except String Unit × EngineState :=
  match createResource s res data with
  | (.ok _, s1) => (.ok (), s1)
  | (.error _, s1) =>
    match getResource s1 res data with
    | (.error e, s2) => (.error e, s2)
    | (.ok v, s2) =>
      match updateResource s2 res v with
      | (.ok _, s3) => (.ok (), s3)
      | (.error e, s3) => (.error e, s3)

/-- Lift a Go error-or-unit result into an `Outcome`. -/
def liftE : Except String Unit × EngineState → Outcome Unit × EngineState
  | (.ok _, s) => (.ok (), s)
  | (.error e, s) => (.err e, s)

/-- `executeManifest`: resolve the document, then delete or apply it. -/
def executeManifest (s : EngineState) (data : Obj) (nsArg : String) (del : Bool) :
    Outcome Unit × EngineState :=
  let dr := resolveDoc data nsArg
  if del then deleteResource s dr.2 dr.1
  else liftE (applyStep s dr.2 dr.1)

/-- `Unstructured.EachListItem` over the `items` array followed by
`executeManifest` on each element, aborting on the first failure; a
non-object member is an error. -/
def eachListItem (s : EngineState) (nsArg : String) (del : Bool) :
    List Value → Outcome Unit × EngineState
  | [] => (.ok (), s)
  | .obj m :: rest =>
    match executeManifest s m nsArg del with
    | (.ok _, s1) => eachListItem s1 nsArg del rest
    | other => other
  | _ :: _ => (.err "items member is not an object", s)

/-- The external YAML/JSON machinery used by `applyManifestPayload`:
`yaml.YAMLToJSON` and `Unstructured.UnmarshalJSON`, modelled as oracles. -/
structure Decoder where
  yamlToJSON : String → Except String String
  unmarshalJSON : String → Except String Obj

/-- `applyManifestPayload`: nil-client guard; convert YAML to JSON; skip
payloads of at most 5 bytes (the `'null'`-JSON skip); unmarshal; then run
`executeManifest` on the document, or on each item of a list document. -/
def applyManifestPayload (dec : Decoder) (s : EngineState) (nsArg newBytes : String)
    (del : Bool) : Outcome Unit × EngineState :=
  if s.clientOk then
    match dec.yamlToJSON newBytes with
    | .error e => (.err (wrapErr "unable to convert yaml to json" e), s)
    | .ok jsonBytes =>
      if jsonBytes.utf8ByteSize > 5 then
        match dec.unmarshalJSON jsonBytes with
        | .error e => (.err (wrapErr "unable to unmarshal json created from yaml" e), s)
        | .ok data =>
          match lookupKey data "items" with
          | some (.arr items) => eachListItem s nsArg del items
          | _ => executeManifest s data nsArg del
      else (.ok (), s)
  else (.err "mesh client has not been created", s)

/-- Go `strings.TrimSpace`, character-level. -/
def trimChars (s : List Char) : List Char :=
  ((s.dropWhile Char.isWhitespace).reverse.dropWhile Char.isWhitespace).reverse

/-- Whether the first list is an item-wise prefix of the second
(both already reversed by the caller when checking a suffix). -/
def revStartsWith : List Char → List Char → Bool
  | _, [] => true
  | [], _ :: _ => false
  | c :: cs, d :: ds => c = d && revStartsWith cs ds

/-- Go `strings.HasSuffix`. -/
def hasSuffixStr (s sfx : String) : Bool :=
  revStartsWith s.data.reverse sfx.data.reverse

/-- Go `strings.TrimSpace` on a `String` (via `trimChars`). -/
def trimStr (s : String) : String := String.mk (trimChars s.data)

/-- The per-document loop of `applyConfigChange`: dispatch each segment
whose trimmed text is non-empty; during a delete, an error whose trimmed
message ends in `"not found"` or `"the server could not find the requested
resource"` is skipped and the loop continues; any other error aborts. -/
def applyLoop (dec : Decoder) (nsArg : String) (del : Bool) :
    EngineState → List String → Outcome Unit × EngineState
  | s, [] => (.ok (), s)
  | s, yml :: rest =>
    if trimStr yml ≠ "" then
      match applyManifestPayload dec s nsArg yml del with
      | (.ok _, s1) => applyLoop dec nsArg del s1 rest
      | (.err e, s1) =>
        if del && (hasSuffixStr (trimStr e) "not found" ||
            hasSuffixStr (trimStr e) "the server could not find the requested resource")
        then applyLoop dec nsArg del s1 rest
        else (.err e, s1)
      | (.crash, s1) => (.crash, s1)
    else applyLoop dec nsArg del s rest

/-- `applyConfigChange`: split the payload on `"---"` and run the
per-document loop. -/
def applyConfigChange (dec : Decoder) (s : EngineState) (contents nsArg : String)
    (del : Bool) : Outcome Unit × EngineState :=
  applyLoop dec nsArg del s ((splitDashes contents.data).map String.mk)

/-- The document set a payload dispatches, up to surrounding whitespace:
trimmed non-empty segments of the `"---"` split, in source order. -/
def docsOf (P : List Char) : List (List Char) :=
  ((splitDashes P).map trimChars).filter (fun d => !d.isEmpty)

/-- The `"---"` delimiter. -/
def dashSep : List Char := ['-', '-', '-']

/-- Re-join documents with the `"---"` delimiter. -/
def joinDocs (ds : List (List Char)) : List Char := List.intercalate dashSep ds

/-- Whether three consecutive dashes (an occurrence of the delimiter)
appear anywhere in the list. -/
def hasTripleDash : List Char → Bool
  | [] => false
  | [_] => false
  | [_, _] => false
  | c :: d :: e :: rest =>
    if c = '-' ∧ d = '-' ∧ e = '-' then true else hasTripleDash (d :: e :: rest)

/-- `meshes.EventType` values used by the adapter. -/
inductive EventType where
  | INFO
  | ERROR

/-- `meshes.EventsResponse`. -/
structure Event where
  eventType : EventType
  summary : String
  details : String

/-- Observable result of one pass of the `StreamEvents` loop body. -/
inductive StreamStep where
  | idle
  | sent (e : Event)
  | failed (e : Event)

/-- One pass of the `StreamEvents` polling loop over the event channel
(modelled as a queue): if an event is pending, pop it and attempt the
single `stream.Send`; on failure the event is re-enqueued (the async
`eventChan <- event` goroutine) and the error is returned. -/
def streamEventsStep (chan : List Event) (sendOk : Event → Bool) :
    StreamStep × List Event :=
  match chan with
  | [] => (.idle, chan)
  | e :: rest => if sendOk e then (.sent e, rest) else (.failed e, rest ++ [e])

/-- Whether every delete call in a trace is preceded by an update call. -/
def updPrecedesDelAux : Bool → List StoreCall → Bool
  | _, [] => true
  | seenUpd, c :: rest =>
    (if c.isDelete then seenUpd else true) && updPrecedesDelAux (seenUpd || c.isUpdate) rest

/-- Every delete call in the trace comes after some update call. -/
def updPrecedesDel (l : List StoreCall) : Bool := updPrecedesDelAux false l

/-! ### Helper lemmas about `splitSlash` -/

theorem splitSlash_cons_slash (rest : List Char) :
    splitSlash ('/' :: rest) = [] :: splitSlash rest := by
  simp [splitSlash]

theorem splitSlash_cons_ne {c : Char} (rest : List Char) (hc : c ≠ '/') :
    splitSlash (c :: rest) = consHead c (splitSlash rest) := by
  simp [splitSlash, hc]

theorem splitSlash_count_zero (l : List Char) (h : l.count '/' = 0) :
    splitSlash l = [l] := by
  induction l with
  | nil => rfl
  | cons c rest ih =>
    rw [List.count_cons] at h
    have hc : c ≠ '/' := by
      intro hc; simp [hc] at h
    have hrest : rest.count '/' = 0 := by
      simp [hc] at h
      omega
    rw [splitSlash_cons_ne rest hc, ih hrest, consHead]

theorem splitSlash_count_one (l : List Char) (h : l.count '/' = 1) :
    ∃ a b, l = a ++ '/' :: b ∧ a.count '/' = 0 ∧ b.count '/' = 0 ∧
      splitSlash l = [a, b] := by
  induction l with
  | nil => simp at h
  | cons c rest ih =>
    rw [List.count_cons] at h
    by_cases hc : c = '/'
    · subst hc
      have hrest : rest.count '/' = 0 := by
        simp at h
        omega
      refine ⟨[], rest, by simp, by simp, hrest, ?_⟩
      rw [splitSlash_cons_slash, splitSlash_count_zero rest hrest]
    · have hrest : rest.count '/' = 1 := by
        simp [hc] at h
        omega
      obtain ⟨a, b, hl, ha, hb, hsplit⟩ := ih hrest
      refine ⟨c :: a, b, by simp [hl], ?_, hb, ?_⟩
      · rw [List.count_cons]
        simp [ha, hc]
      · rw [splitSlash_cons_ne rest hc, hsplit, consHead]

theorem splitSlash_length (l : List Char) :
    (splitSlash l).length = l.count '/' + 1 := by
  induction l with
  | nil => simp [splitSlash]
  | cons c rest ih =>
    by_cases hc : c = '/'
    · subst hc
      rw [splitSlash_cons_slash, List.count_cons]
      simp [ih]
    · rw [splitSlash_cons_ne rest hc, List.count_cons]
      cases hrest : splitSlash rest with
      | nil => rw [hrest] at ih; simp at ih
      | cons q qs =>
        rw [hrest] at ih
        simp only [List.length_cons] at ih
        simp [consHead, hc]
        omega

/-! ### Helper lemmas about `splitDashes`, `trimChars` and `docsOf` -/

theorem splitDashes_cons₃ (c d e : Char) (rest : List Char) :
    splitDashes (c :: d :: e :: rest) =
      if c = '-' ∧ d = '-' ∧ e = '-' then [] :: splitDashes rest
      else consHead c (splitDashes (d :: e :: rest)) := rfl

theorem hasTripleDash_cons₃ (c d e : Char) (rest : List Char) :
    hasTripleDash (c :: d :: e :: rest) =
      if c = '-' ∧ d = '-' ∧ e = '-' then true else hasTripleDash (d :: e :: rest) := rfl

theorem splitDashes_sep_head (t : List Char) :
    splitDashes ('-' :: '-' :: '-' :: t) = [] :: splitDashes t := by
  rw [splitDashes_cons₃, if_pos ⟨rfl, rfl, rfl⟩]

theorem hasTripleDash_cons_false {c : Char} {p : List Char}
    (h : hasTripleDash (c :: p) = false) : hasTripleDash p = false := by
  match p, h with
  | [], _ => rfl
  | [d], _ => rfl
  | d :: e :: p', h =>
    rw [hasTripleDash_cons₃] at h
    split at h
    · cases h
    · exact h

theorem splitDashes_append_sep (p : List Char) : ∀ t : List Char,
    hasTripleDash p = false → p.getLast? ≠ some '-' →
    splitDashes (p ++ '-' :: '-' :: '-' :: t) = p :: splitDashes t := by
  induction p with
  | nil =>
    intro t _ _
    simpa using splitDashes_sep_head t
  | cons c p' ih =>
    intro t hTriple hLast
    cases p' with
    | nil =>
      have hc : c ≠ '-' := fun hc => hLast (by simp [hc])
      simp only [List.cons_append, List.nil_append]
      rw [splitDashes_cons₃, if_neg (by simp [hc]), splitDashes_sep_head, consHead]
    | cons d p'' =>
      cases p'' with
      | nil =>
        have hd : d ≠ '-' := fun hd => hLast (by simp [hd])
        simp only [List.cons_append, List.nil_append]
        rw [splitDashes_cons₃, if_neg (by simp [hd])]
        have hrec := ih t rfl (by simp [hd])
        simp only [List.cons_append, List.nil_append] at hrec
        rw [hrec, consHead]
      | cons e p''' =>
        have hcond : ¬ (c = '-' ∧ d = '-' ∧ e = '-') := by
          intro hcde
          rw [hasTripleDash_cons₃, if_pos hcde] at hTriple
          cases hTriple
        have hT' : hasTripleDash (d :: e :: p''') = false :=
          hasTripleDash_cons_false hTriple
        have hL' : (d :: e :: p''').getLast? ≠ some '-' := by
          simpa [List.getLast?_cons_cons] using hLast
        simp only [List.cons_append]
        rw [splitDashes_cons₃, if_neg hcond]
        have hrec := ih t hT' hL'
        simp only [List.cons_append] at hrec
        rw [hrec, consHead]

theorem splitDashes_no_triple (p : List Char) (h : hasTripleDash p = false) :
    splitDashes p = [p] := by
  induction p with
  | nil => rfl
  | cons c p' ih =>
    cases p' with
    | nil => rfl
    | cons d p'' =>
      cases p'' with
      | nil => rfl
      | cons e p''' =>
        have hcond : ¬ (c = '-' ∧ d = '-' ∧ e = '-') := by
          intro hcde
          rw [hasTripleDash_cons₃, if_pos hcde] at h
          cases h
        rw [splitDashes_cons₃, if_neg hcond, ih (hasTripleDash_cons_false h), consHead]

theorem splitDashes_head_extends (s : List Char) :
    ∃ q qs r, splitDashes s = q :: qs ∧ q ++ r = s := by
  induction s using splitDashes.induct with
  | case1 => exact ⟨[], [], [], rfl, rfl⟩
  | case2 c => exact ⟨[c], [], [], rfl, rfl⟩
  | case3 c d => exact ⟨[c, d], [], [], rfl, rfl⟩
  | case4 c d e rest h ih =>
    refine ⟨[], splitDashes rest, c :: d :: e :: rest, ?_, rfl⟩
    rw [splitDashes_cons₃, if_pos h]
  | case5 c d e rest h ih =>
    obtain ⟨q, qs, r, hsplit, happ⟩ := ih
    refine ⟨c :: q, qs, r, ?_, by simp [happ]⟩
    rw [splitDashes_cons₃, if_neg h, hsplit, consHead]

theorem splitDashes_pieces_no_triple (s : List Char) :
    ∀ p ∈ splitDashes s, hasTripleDash p = false := by
  induction s using splitDashes.induct with
  | case1 =>
    intro p hp
    simp only [splitDashes, List.mem_singleton] at hp
    subst hp; rfl
  | case2 c =>
    intro p hp
    simp only [splitDashes, List.mem_singleton] at hp
    subst hp; rfl
  | case3 c d =>
    intro p hp
    simp only [splitDashes, List.mem_singleton] at hp
    subst hp; rfl
  | case4 c d e rest h ih =>
    intro p hp
    rw [splitDashes_cons₃, if_pos h] at hp
    rcases List.mem_cons.mp hp with rfl | hp
    · rfl
    · exact ih p hp
  | case5 c d e rest h ih =>
    intro p hp
    obtain ⟨q, qs, r, hsplit, happ⟩ := splitDashes_head_extends (d :: e :: rest)
    rw [splitDashes_cons₃, if_neg h, hsplit, consHead] at hp
    rcases List.mem_cons.mp hp with rfl | hp
    · have hq : hasTripleDash q = false := ih q (by rw [hsplit]; exact List.mem_cons_self _ _)
      cases q with
      | nil => rfl
      | cons x q1 =>
        cases q1 with
        | nil =>
          simp only [List.singleton_append, List.cons.injEq] at happ
          obtain ⟨rfl, -⟩ := happ
          rfl
        | cons y q' =>
          simp only [List.cons_append, List.cons.injEq] at happ
          obtain ⟨rfl, rfl, -⟩ := happ
          rw [hasTripleDash_cons₃, if_neg h]
          exact hq
    · exact ih p (by rw [hsplit]; exact List.mem_cons_of_mem _ hp)

theorem hasTripleDash_iff (l : List Char) :
    hasTripleDash l = true ↔ ∃ a b, l = a ++ '-' :: '-' :: '-' :: b := by
  induction l using hasTripleDash.induct with
  | case1 =>
    refine ⟨fun h => absurd h Bool.false_ne_true, ?_⟩
    rintro ⟨a, b, hab⟩
    have hlen := congrArg List.length hab
    simp only [List.length_append, List.length_cons, List.length_nil] at hlen
    omega
  | case2 c =>
    refine ⟨fun h => absurd h Bool.false_ne_true, ?_⟩
    rintro ⟨a, b, hab⟩
    have hlen := congrArg List.length hab
    simp only [List.length_append, List.length_cons, List.length_nil] at hlen
    omega
  | case3 c d =>
    refine ⟨fun h => absurd h Bool.false_ne_true, ?_⟩
    rintro ⟨a, b, hab⟩
    have hlen := congrArg List.length hab
    simp only [List.length_append, List.length_cons, List.length_nil] at hlen
    omega
  | case4 c d e rest h =>
    rw [hasTripleDash_cons₃, if_pos h]
    obtain ⟨rfl, rfl, rfl⟩ := h
    simp only [true_iff]
    exact ⟨[], rest, rfl⟩
  | case5 c d e rest h ih =>
    rw [hasTripleDash_cons₃, if_neg h, ih]
    constructor
    · rintro ⟨a, b, hab⟩
      exact ⟨c :: a, b, by rw [List.cons_append, hab]⟩
    · rintro ⟨a, b, hab⟩
      cases a with
      | nil =>
        simp only [List.nil_append, List.cons.injEq] at hab
        exact absurd ⟨hab.1, hab.2.1, hab.2.2.1⟩ h
      | cons x a' =>
        simp only [List.cons_append, List.cons.injEq] at hab
        exact ⟨a', b, hab.2⟩

theorem rev_drop_take (p : Char → Bool) (l : List Char) :
    (l.reverse.dropWhile p).reverse ++ (l.reverse.takeWhile p).reverse = l := by
  calc (l.reverse.dropWhile p).reverse ++ (l.reverse.takeWhile p).reverse
      = (l.reverse.takeWhile p ++ l.reverse.dropWhile p).reverse := by
        rw [List.reverse_append]
    _ = l.reverse.reverse := by rw [List.takeWhile_append_dropWhile]
    _ = l := List.reverse_reverse l

theorem trimChars_decomp (s : List Char) : ∃ u w, s = u ++ trimChars s ++ w := by
  refine ⟨s.takeWhile Char.isWhitespace,
    ((s.dropWhile Char.isWhitespace).reverse.takeWhile Char.isWhitespace).reverse, ?_⟩
  rw [List.append_assoc, trimChars, rev_drop_take, List.takeWhile_append_dropWhile]

theorem hasTripleDash_trimChars {s : List Char} (h : hasTripleDash s = false) :
    hasTripleDash (trimChars s) = false := by
  by_contra hc
  rw [Bool.not_eq_false] at hc
  obtain ⟨a, b, hab⟩ := (hasTripleDash_iff _).mp hc
  obtain ⟨u, w, hs⟩ := trimChars_decomp s
  have hdecomp : s = (u ++ a) ++ '-' :: '-' :: '-' :: (b ++ w) := by
    rw [hs, hab]; simp
  have htrue := (hasTripleDash_iff s).mpr ⟨u ++ a, b ++ w, hdecomp⟩
  rw [h] at htrue
  cases htrue

theorem dropWhile_length_le (p : Char → Bool) (l : List Char) :
    (l.dropWhile p).length ≤ l.length := by
  induction l with
  | nil => simp
  | cons a l ih =>
    rw [List.dropWhile_cons]
    split
    · exact Nat.le_trans ih (Nat.le_succ _)
    · simp

theorem drop_self_of_append {p : Char → Bool} {l z w : List Char}
    (hl : l.dropWhile p = l) (hw : z ++ w = l) : z.dropWhile p = z := by
  cases z with
  | nil => rfl
  | cons a z' =>
    have hal : l = a :: (z' ++ w) := by rw [← hw]; rfl
    by_cases hpa : p a = true
    · exfalso
      rw [hal, List.dropWhile_cons, if_pos hpa] at hl
      have h1 := dropWhile_length_le p (z' ++ w)
      have h2 := congrArg List.length hl
      simp only [List.length_cons] at h2
      omega
    · rw [List.dropWhile_cons, if_neg hpa]

theorem trimChars_eq_rdrop (s : List Char) :
    trimChars s = List.rdropWhile Char.isWhitespace (s.dropWhile Char.isWhitespace) := rfl

theorem trimChars_idem (s : List Char) : trimChars (trimChars s) = trimChars s := by
  rw [trimChars_eq_rdrop, trimChars_eq_rdrop]
  obtain ⟨w, hw⟩ := List.rdropWhile_prefix Char.isWhitespace
    (s.dropWhile Char.isWhitespace)
  have hidem : (s.dropWhile Char.isWhitespace).dropWhile Char.isWhitespace
      = s.dropWhile Char.isWhitespace := List.dropWhile_idempotent _ _
  have hz := drop_self_of_append hidem hw
  rw [hz, List.rdropWhile_idempotent]

theorem docsOf_joinDocs (ds : List (List Char))
    (h : ∀ d ∈ ds, trimChars d = d ∧ d ≠ [] ∧ hasTripleDash d = false ∧
      d.getLast? ≠ some '-') :
    docsOf (joinDocs ds) = ds := by
  induction ds with
  | nil => rfl
  | cons d ds' ih =>
    cases ds' with
    | nil =>
      obtain ⟨htrim, hne, htriple, -⟩ := h d (List.mem_cons_self _ _)
      have hjoin : joinDocs [d] = d := by simp [joinDocs, List.intercalate]
      rw [hjoin, docsOf, splitDashes_no_triple d htriple]
      simp [htrim, hne]
    | cons d2 ds'' =>
      obtain ⟨htrim, hne, htriple, hlast⟩ := h d (List.mem_cons_self _ _)
      have hjoin : joinDocs (d :: d2 :: ds'') =
          d ++ '-' :: '-' :: '-' :: joinDocs (d2 :: ds'') := by
        simp [joinDocs, List.intercalate, List.intersperse, dashSep]
      rw [hjoin, docsOf, splitDashes_append_sep d _ htriple hlast]
      have ih' := ih (fun x hx => h x (List.mem_cons_of_mem _ hx))
      rw [docsOf] at ih'
      simp only [List.map_cons, List.filter_cons, htrim]
      rw [ih']
      simp [hne]

/-! ### Claim theorems -/

/-- C3: for every delete request whose resource plural is `"namespaces"`
and whose object name is `"default"`, `deleteResource` returns success
without issuing any store call, whatever the store's responses and the
engine's prior trace — provided the dynamic client has been created (a nil
client is reported as an error before this check). -/
theorem claim3_default_namespace_delete_noop (s : EngineState) (res : GVR) (data : Obj)
    (hclient : s.clientOk = true)
    (hres : res.resource = "namespaces") (hname : getName data = "default") :
    deleteResource s res data = (.ok (), s) := by
  simp [deleteResource, hclient, hres, hname]

/-- C3 witness: deleting the `"default"` object of `"namespaces"` on a
store that rejects everything is still a silent success with no call. -/
theorem claim3_witness :
    deleteResource (initState fun _ => .error "boom")
        { group := "", version := "v1", resource := "namespaces" }
        [("metadata", .obj [("name", .strV "default")])] =
      (.ok (), initState fun _ => .error "boom") :=
  claim3_default_namespace_delete_noop _ _ _ rfl rfl rfl

/-- C5: the computed resource plural is the lower-cased kind with `"s"`
appended, except for the two irregular forms `"logentry"` and
`"kubernetes"`, which map to the literals `"logentries"` and
`"kuberneteses"`. -/
theorem claim5_pluralization (k : String) :
    (toLowerStr k ≠ "logentry" → toLowerStr k ≠ "kubernetes" →
      pluralizeKind k = toLowerStr k ++ "s") ∧
    (toLowerStr k = "logentry" → pluralizeKind k = "logentries") ∧
    (toLowerStr k = "kubernetes" → pluralizeKind k = "kuberneteses") := by
  refine ⟨fun h1 h2 => ?_, fun h => ?_, fun h => ?_⟩ <;>
    simp [pluralizeKind, *]

/-- C5 witness: `"Deployment"` pluralizes by the default rule, and the two
irregular kinds map to their fixed literals. -/
theorem claim5_witness :
    pluralizeKind "Deployment" = toLowerStr "Deployment" ++ "s" ∧
    pluralizeKind "LogEntry" = "logentries" ∧
    pluralizeKind "Kubernetes" = "kuberneteses" :=
  ⟨(claim5_pluralization "Deployment").1 (by decide) (by decide),
   (claim5_pluralization "LogEntry").2.1 (by decide),
   (claim5_pluralization "Kubernetes").2.2 (by decide)⟩

/-- C6: the group/version coordinate splits `apiVersion` on `"/"`: with
exactly one slash the part before it is the group and the part after it the
version; with no slash the whole string is the version and the group is
empty; with two or more slashes both stay at their empty defaults, and no
error is raised (the function is total). -/
theorem claim6_apiversion_split (s : List Char) :
    (s.count '/' = 1 → ∃ a b, s = a ++ '/' :: b ∧
      a.count '/' = 0 ∧ b.count '/' = 0 ∧
      resolveGV s = (String.mk a, String.mk b)) ∧
    (s.count '/' = 0 → resolveGV s = ("", String.mk s)) ∧
    (2 ≤ s.count '/' → resolveGV s = ("", "")) := by
  refine ⟨fun h => ?_, fun h => ?_, fun h => ?_⟩
  · obtain ⟨a, b, hl, ha, hb, hsplit⟩ := splitSlash_count_one s h
    exact ⟨a, b, hl, ha, hb, by simp [resolveGV, hsplit]⟩
  · simp [resolveGV, splitSlash_count_zero s h]
  · have hlen := splitSlash_length s
    have h2 : (splitSlash s).length ≠ 2 := by omega
    have h1 : (splitSlash s).length ≠ 1 := by omega
    simp [resolveGV, h1, h2]

/-- C6 witness: `"apps/v1"` splits into group `"apps"` and version `"v1"`,
with both sides slash-free. -/
theorem claim6_witness :
    ∃ a b, "apps/v1".data = a ++ '/' :: b ∧
      a.count '/' = 0 ∧ b.count '/' = 0 ∧
      resolveGV "apps/v1".data = (String.mk a, String.mk b) :=
  (claim6_apiversion_split "apps/v1".data).1 (by decide)

/-- C9: when the YAML-to-JSON conversion of a document succeeds but yields
a payload of at most 5 bytes (the `'null'`-JSON skip), the apply step
returns success with no store call and no error. -/
theorem claim9_small_payload_skipped (dec : Decoder) (s : EngineState)
    (nsArg newBytes j : String) (del : Bool)
    (hclient : s.clientOk = true)
    (hconv : dec.yamlToJSON newBytes = .ok j)
    (hsize : j.utf8ByteSize ≤ 5) :
    applyManifestPayload dec s nsArg newBytes del = (.ok (), s) := by
  have hgt : ¬ j.utf8ByteSize > 5 := by omega
  simp [applyManifestPayload, hclient, hconv, hgt]

/-- C9 witness: a document converting to the 4-byte JSON `"null"` is
skipped silently, with the engine state (hence the trace) unchanged. -/
theorem claim9_witness :
    applyManifestPayload
        { yamlToJSON := fun _ => .ok "null", unmarshalJSON := fun _ => .error "unused" }
        (initState fun _ => .error "boom") "ns" "# only comments" false =
      (.ok (), initState fun _ => .error "boom") :=
  claim9_small_payload_skipped _ _ _ _ _ _ rfl rfl (by decide)

/-- C10: in the deployments delete special case, once the get has
succeeded, the engine unconditionally treats the retrieved object's
`"spec"` entry as a present map when zeroing replicas; a retrieved object
whose `"spec"` is absent or not a map makes this a runtime panic
(`Outcome.crash`), not a returned error — the only call issued is the
get. -/
theorem claim10_deployments_missing_spec_panics (resp : Nat → Except String Obj)
    (res : GVR) (data : Obj) (v : Obj)
    (hres : res.resource = "deployments")
    (hget : resp 0 = .ok v)
    (hspec : specZeroed v = none) :
    deleteResource (initState resp) res data =
      (.crash, { initState resp with
        calls := [.get res (some (getNamespace data)) (getName data)] }) := by
  have hns : ¬ (res.resource = "namespaces" ∧ getName data = "default") := by
    rw [hres]; rintro ⟨h, -⟩; exact absurd h (by decide)
  simp [deleteResource, initState, getResource, issue, hres, hns, hget, hspec]

/-- C10 witness: deleting a deployment whose stored object has no `"spec"`
key panics after the namespaced get. -/
theorem claim10_witness :
    deleteResource (initState fun _ => .ok [("kind", .strV "Deployment")])
        { group := "apps", version := "v1", resource := "deployments" }
        [("metadata", .obj [("name", .strV "d"), ("namespace", .strV "n")])] =
      (.crash, { initState (fun _ => .ok [("kind", .strV "Deployment")]) with
        calls := [.get { group := "apps", version := "v1", resource := "deployments" }
          (some "n") "d"] }) :=
  claim10_deployments_missing_spec_panics _ _ _ _ rfl rfl rfl

/-- C7: when the single delivery attempt of the stream loop fails for an
event, that event is re-enqueued at the back of the channel rather than
dropped (possible reordering behind later events), and a subsequent pass
over the channel observes the same event again. -/
theorem claim7_failed_send_requeued (chan : List Event) (sendOk : Event → Bool)
    (e : Event) (rest : List Event)
    (hchan : chan = e :: rest) (hfail : sendOk e = false) :
    (streamEventsStep chan sendOk).1 = .failed e ∧
    (streamEventsStep chan sendOk).2 = rest ++ [e] ∧
    e ∈ (streamEventsStep chan sendOk).2 ∧
    (rest = [] → ∀ sendOk2 : Event → Bool,
      (streamEventsStep (streamEventsStep chan sendOk).2 sendOk2).1 =
        if sendOk2 e then .sent e else .failed e) := by
  subst hchan
  refine ⟨by simp [streamEventsStep, hfail], by simp [streamEventsStep, hfail], ?_, ?_⟩
  · simp [streamEventsStep, hfail]
  · rintro rfl sendOk2
    by_cases h2 : sendOk2 e <;> simp [streamEventsStep, hfail, h2]

/-- C7 witness: a lone event whose delivery fails is requeued and observed
again by the next pass. -/
theorem claim7_witness :
    (streamEventsStep [{ eventType := .INFO, summary := "s", details := "d" }]
        (fun _ => false)).1 =
      .failed { eventType := .INFO, summary := "s", details := "d" } ∧
    ({ eventType := .INFO, summary := "s", details := "d" } : Event) ∈
      (streamEventsStep [{ eventType := .INFO, summary := "s", details := "d" }]
        (fun _ => false)).2 :=
  ⟨(claim7_failed_send_requeued _ _ _ _ rfl rfl).1,
   (claim7_failed_send_requeued _ _ _ _ rfl rfl).2.2.1⟩

/-- C1: the apply path first attempts a namespace-scoped create; if that
fails it retries the create with no namespace scope; only when both creates
fail does it fall back to get-then-update, and every update it then issues
carries the object returned by the get (`v`), not the caller's payload
(`data`).  In particular, when the un-namespaced create succeeds, the trace
is exactly the two creates: no get or update call is ever made. -/
theorem claim1_apply_fallback (resp : Nat → Except String Obj) (res : GVR) (data : Obj) :
    (∀ v, resp 0 = .ok v →
      applyStep (initState resp) res data =
        (.ok (), { initState resp with
          calls := [.create res (some (getNamespace data)) data] })) ∧
    (∀ e1 v, resp 0 = .error e1 → resp 1 = .ok v →
      applyStep (initState resp) res data =
        (.ok (), { initState resp with
          calls := [.create res (some (getNamespace data)) data,
                    .create res none data] })) ∧
    (∀ e1 e2, resp 0 = .error e1 → resp 1 = .error e2 →
      ((applyStep (initState resp) res data).2.calls.take 3 =
        [.create res (some (getNamespace data)) data, .create res none data,
         .get res (some (getNamespace data)) (getName data)])) ∧
    (∀ e1 e2 v, resp 0 = .error e1 → resp 1 = .error e2 → resp 2 = .ok v →
      ((applyStep (initState resp) res data).2.calls.take 4 =
        [.create res (some (getNamespace data)) data, .create res none data,
         .get res (some (getNamespace data)) (getName data),
         .update res (some (getNamespace v)) v])) ∧
    (∀ e1 e2 e3 v, resp 0 = .error e1 → resp 1 = .error e2 → resp 2 = .error e3 →
        resp 3 = .ok v →
      ((applyStep (initState resp) res data).2.calls.take 5 =
        [.create res (some (getNamespace data)) data, .create res none data,
         .get res (some (getNamespace data)) (getName data),
         .get res none (getName data),
         .update res (some (getNamespace v)) v])) := by
  refine ⟨?_, ?_, ?_, ?_, ?_⟩
  · intro v h0
    simp [applyStep, createResource, issue, initState, h0]
  · intro e1 v h0 h1
    simp [applyStep, createResource, issue, initState, h0, h1]
  · intro e1 e2 h0 h1
    cases h2 : resp 2 <;> cases h3 : resp 3 <;> cases h4 : resp 4 <;> cases h5 : resp 5 <;>
      simp [applyStep, createResource, getResource, updateResource, issue, initState,
        h0, h1, h2, h3, h4, h5]
  · intro e1 e2 v h0 h1 h2
    cases h3 : resp 3 <;> cases h4 : resp 4 <;>
      simp [applyStep, createResource, getResource, updateResource, issue, initState,
        h0, h1, h2, h3, h4]
  · intro e1 e2 e3 v h0 h1 h2 h3
    cases h4 : resp 4 <;> cases h5 : resp 5 <;>
      simp [applyStep, createResource, getResource, updateResource, issue, initState,
        h0, h1, h2, h3, h4, h5]

/-- C1 witness: with a store that rejects the namespaced create and accepts
the un-namespaced one, the trace is exactly the two creates and the apply
succeeds — no get or update call. -/
theorem claim1_witness :
    applyStep (initState fun n => if n = 0 then .error "e0" else .ok [])
        { group := "", version := "v1", resource := "pods" } [] =
      (.ok (), { initState (fun n => if n = 0 then .error "e0" else .ok []) with
        calls := [.create { group := "", version := "v1", resource := "pods" }
                    (some (getNamespace [])) [],
                  .create { group := "", version := "v1", resource := "pods" } none []] }) :=
  (claim1_apply_fallback _ _ _).2.1 "e0" [] rfl rfl

/-- C2: deleting a resource whose computed plural is `"deployments"` first
reads the object (the first store call is the namespace-scoped get), then
pushes an update whose object is the retrieved one with its replica count
zeroed, and only then issues the delete; on the success path the calls are
get, update, delete in that order, and in every execution any delete call
in the trace is preceded by an update call. -/
theorem claim2_deployments_scale_down (resp : Nat → Except String Obj) (res : GVR)
    (data : Obj) (hres : res.resource = "deployments") :
    ((deleteResource (initState resp) res data).2.calls.take 1 =
      [.get res (some (getNamespace data)) (getName data)]) ∧
    (∀ v v', resp 0 = .ok v → specZeroed v = some v' →
      (deleteResource (initState resp) res data).2.calls.take 2 =
        [.get res (some (getNamespace data)) (getName data),
         .update res (some (getNamespace v')) v']) ∧
    (∀ v v' w, resp 0 = .ok v → specZeroed v = some v' → resp 1 = .ok w →
      (deleteResource (initState resp) res data).2.calls.take 3 =
        [.get res (some (getNamespace data)) (getName data),
         .update res (some (getNamespace v')) v',
         .delete res (some (getNamespace data)) (getName data)]) ∧
    (updPrecedesDel (deleteResource (initState resp) res data).2.calls = true) := by
  have hns : ¬ (res.resource = "namespaces" ∧ getName data = "default") := by
    rw [hres]; rintro ⟨h, -⟩; exact absurd h (by decide)
  refine ⟨?_, ?_, ?_, ?_⟩
  · cases h0 : resp 0 with
    | error e0 =>
      cases h1 : resp 1 with
      | error e1 =>
        simp [deleteResource, getResource, updateResource, issue, initState, hres, hns, h0, h1]
      | ok v =>
        cases hz : specZeroed v with
        | none =>
          simp [deleteResource, getResource, updateResource, issue, initState, hres, hns,
            h0, h1, hz]
        | some v' =>
          cases h2 : resp 2 <;> cases h3 : resp 3 <;> cases h4 : resp 4 <;> cases h5 : resp 5 <;>
            simp [deleteResource, getResource, updateResource, issue, initState, hres, hns,
              h0, h1, hz, h2, h3, h4, h5]
    | ok v =>
      cases hz : specZeroed v with
      | none =>
        simp [deleteResource, getResource, updateResource, issue, initState, hres, hns, h0, hz]
      | some v' =>
        cases h1 : resp 1 <;> cases h2 : resp 2 <;> cases h3 : resp 3 <;> cases h4 : resp 4 <;>
          simp [deleteResource, getResource, updateResource, issue, initState, hres, hns,
            h0, hz, h1, h2, h3, h4]
  · intro v v' h0 hz
    cases h1 : resp 1 <;> cases h2 : resp 2 <;> cases h3 : resp 3 <;> cases h4 : resp 4 <;>
      simp [deleteResource, getResource, updateResource, issue, initState, hres, hns,
        h0, hz, h1, h2, h3, h4]
  · intro v v' w h0 hz h1
    cases h2 : resp 2 <;> cases h3 : resp 3 <;>
      simp [deleteResource, getResource, updateResource, issue, initState, hres, hns,
        h0, hz, h1, h2, h3]
  · cases h0 : resp 0 with
    | error e0 =>
      cases h1 : resp 1 with
      | error e1 =>
        simp [deleteResource, getResource, updateResource, issue, initState, hres, hns, h0, h1,
          updPrecedesDel, updPrecedesDelAux, StoreCall.isDelete, StoreCall.isUpdate]
      | ok v =>
        cases hz : specZeroed v with
        | none =>
          simp [deleteResource, getResource, updateResource, issue, initState, hres, hns,
            h0, h1, hz, updPrecedesDel, updPrecedesDelAux, StoreCall.isDelete, StoreCall.isUpdate]
        | some v' =>
          cases h2 : resp 2 <;> cases h3 : resp 3 <;> cases h4 : resp 4 <;> cases h5 : resp 5 <;>
            simp [deleteResource, getResource, updateResource, issue, initState, hres, hns,
              h0, h1, hz, h2, h3, h4, h5,
              updPrecedesDel, updPrecedesDelAux, StoreCall.isDelete, StoreCall.isUpdate]
    | ok v =>
      cases hz : specZeroed v with
      | none =>
        simp [deleteResource, getResource, updateResource, issue, initState, hres, hns, h0, hz,
          updPrecedesDel, updPrecedesDelAux, StoreCall.isDelete, StoreCall.isUpdate]
      | some v' =>
        cases h1 : resp 1 <;> cases h2 : resp 2 <;> cases h3 : resp 3 <;> cases h4 : resp 4 <;>
          simp [deleteResource, getResource, updateResource, issue, initState, hres, hns,
            h0, hz, h1, h2, h3, h4,
            updPrecedesDel, updPrecedesDelAux, StoreCall.isDelete, StoreCall.isUpdate]

/-- C2 witness: a deployment whose stored object carries a map-valued
`"spec"`, against a store that accepts everything, produces exactly the
calls get, update (replicas zeroed), delete, in that order. -/
theorem claim2_witness :
    (deleteResource
        (initState fun _ => .ok [("spec", .obj [("replicas", .intV 3)])])
        { group := "apps", version := "v1", resource := "deployments" }
        [("metadata", .obj [("name", .strV "d")])]).2.calls.take 3 =
      [.get { group := "apps", version := "v1", resource := "deployments" }
        (some (getNamespace [("metadata", Value.obj [("name", Value.strV "d")])]))
        (getName [("metadata", Value.obj [("name", Value.strV "d")])]),
       .update { group := "apps", version := "v1", resource := "deployments" }
        (some (getNamespace [("spec", Value.obj [("replicas", Value.intV 0)])]))
        [("spec", Value.obj [("replicas", Value.intV 0)])],
       .delete { group := "apps", version := "v1", resource := "deployments" }
        (some (getNamespace [("metadata", Value.obj [("name", Value.strV "d")])]))
        (getName [("metadata", Value.obj [("name", Value.strV "d")])])] :=
  (claim2_deployments_scale_down _ _ _ rfl).2.2.1
    [("spec", .obj [("replicas", .intV 3)])]
    [("spec", .obj [("replicas", .intV 0)])]
    [("spec", .obj [("replicas", .intV 3)])] rfl rfl rfl

/-- C4: in the per-document loop, when the dispatched document fails with
an error and the operation is a delete whose trimmed message ends in one of
the two "not found" forms, the error is swallowed and the loop continues
with the remaining documents from the post-failure state; for any other
error — or any error when the operation is not a delete — the loop stops
and returns that error, so the remaining documents are not processed (the
final state is the one reached at the failure). -/
theorem claim4_loop_error_policy (dec : Decoder) (s s' : EngineState)
    (nsArg yml : String) (rest : List String) (del : Bool) (e : String)
    (hyml : trimStr yml ≠ "")
    (happ : applyManifestPayload dec s nsArg yml del = (.err e, s')) :
    (del = true →
      (hasSuffixStr (trimStr e) "not found" ||
        hasSuffixStr (trimStr e) "the server could not find the requested resource") = true →
      applyLoop dec nsArg del s (yml :: rest) = applyLoop dec nsArg del s' rest) ∧
    ((del && (hasSuffixStr (trimStr e) "not found" ||
        hasSuffixStr (trimStr e) "the server could not find the requested resource")) = false →
      applyLoop dec nsArg del s (yml :: rest) = (.err e, s')) := by
  constructor
  · intro hdel hsfx
    subst hdel
    simp [applyLoop, hyml, happ, hsfx]
  · intro hfalse
    simp [applyLoop, hyml, happ, hfalse]

/-- C4 witness: during a delete, a document whose conversion fails with a
message ending in `"not found"` is skipped and the loop continues (here to
the empty remainder, succeeding); the same failure outside a delete aborts
the loop with that error. -/
theorem claim4_witness :
    (applyLoop { yamlToJSON := fun _ => .error "thing not found",
                 unmarshalJSON := fun _ => .error "unused" }
        "ns" true (initState fun _ => .error "boom") ["doc"] =
      applyLoop { yamlToJSON := fun _ => .error "thing not found",
                  unmarshalJSON := fun _ => .error "unused" }
        "ns" true (initState fun _ => .error "boom") []) ∧
    (applyLoop { yamlToJSON := fun _ => .error "thing not found",
                 unmarshalJSON := fun _ => .error "unused" }
        "ns" false (initState fun _ => .error "boom") ["doc"] =
      (.err "unable to convert yaml to json: thing not found",
        initState fun _ => .error "boom")) :=
  ⟨(claim4_loop_error_policy
      { yamlToJSON := fun _ => .error "thing not found",
        unmarshalJSON := fun _ => .error "unused" }
      (initState fun _ => .error "boom") (initState fun _ => .error "boom")
      "ns" "doc" [] true "unable to convert yaml to json: thing not found"
      (by decide) rfl).1 rfl (by decide),
   (claim4_loop_error_policy
      { yamlToJSON := fun _ => .error "thing not found",
        unmarshalJSON := fun _ => .error "unused" }
      (initState fun _ => .error "boom") (initState fun _ => .error "boom")
      "ns" "doc" [] false "unable to convert yaml to json: thing not found"
      (by decide) rfl).2 (by decide)⟩

/-- C8 counterexample: the round-trip claim fails as stated.  For the
payload `"a- --- b"` the extracted documents are `"a-"` and `"b"`; re-joined
with `"---"` this reads `"a----b"`, in which the leftmost delimiter
occurrence has shifted into the first document's trailing dash, so a second
split yields the different document set `"a"`, `"-b"`. -/
theorem claim8_counterexample :
    docsOf (joinDocs (docsOf ("a- --- b".data))) ≠ docsOf ("a- --- b".data) := by
  decide

/-- C8 (amended): splitting yields the trimmed non-empty segments in source
order (`docsOf`), and re-joining them with the delimiter reconstructs the
same document set provided no extracted document ends in the delimiter
character `'-'`; without that proviso a trailing dash can merge with the
inserted delimiter and move the split point, as the counterexample shows. -/
theorem claim8_split_rejoin (P : List Char)
    (hlast : ∀ d ∈ docsOf P, d.getLast? ≠ some '-') :
    docsOf (joinDocs (docsOf P)) = docsOf P := by
  apply docsOf_joinDocs
  intro d hd
  have hd' := hd
  rw [docsOf] at hd'
  obtain ⟨hmem, hpred⟩ := List.mem_filter.mp hd'
  obtain ⟨seg, hseg, rfl⟩ := List.mem_map.mp hmem
  refine ⟨trimChars_idem seg, ?_, ?_, hlast _ hd⟩
  · intro h0
    rw [h0] at hpred
    simp at hpred
  · exact hasTripleDash_trimChars (splitDashes_pieces_no_triple P seg hseg)

/-- C8 witness: a payload whose documents do not end in `'-'` round-trips
exactly. -/
theorem claim8_witness :
    docsOf (joinDocs (docsOf ("a --- b --- c".data))) = docsOf ("a --- b --- c".data) :=
  claim8_split_rejoin ("a --- b --- c".data) (by decide)

end MesheryOctarine
